import Mathlib

/-
Verification development for the NCR report pipeline in `Eden_Final.py`.

The Python source classifies non-conformance records (free-text description,
discipline tag, dates, status) into towers / pour zones / discipline
categories, and aggregates them per report type through a chunked
remote-completion protocol with a deterministic local fallback.

The definitions below are a shallow embedding of that source:
  * the regex-based text classifier (pour extraction, discipline
    categorization, tower assignment) is embedded through a small
    backtracking matcher that reproduces the semantics of the specific
    Python regular expressions used by the code;
  * the chunked aggregation loops (NCR, Housekeeping, Safety) are embedded
    as folds over chunk lists with an explicit remote-outcome parameter;
  * pandas filtering is embedded as list filtering over record structures
    with dates as integers.
-/

set_option autoImplicit false

/-! ## Character classes (Python `re` semantics, ASCII scope)

Python `\s` is `[ \t\n\r\f\v]`; `\d` is `[0-9]` (ASCII scope). The
descriptions handled by the classifier are lower-cased by the source
before matching (`description = cleaned_record["Description"].lower()`),
so the case-insensitive patterns reduce to matching their lower-case
literals. -/

def isPySpace (c : Char) : Bool :=
  c = ' ' || c = '\t' || c = '\n' || c = '\r' || c = '\x0b' || c = '\x0c'

def isDigitChar (c : Char) : Bool :=
  '0' ≤ c && c ≤ '9'

/-- The class `[-\s]` used between tokens in the pour patterns. -/
def isDashSpace (c : Char) : Bool :=
  c = '-' || isPySpace c

/-- The class `[0-9,\s&and]` of the pour list pattern: digits, comma,
whitespace, ampersand and the letters a, n, d. -/
def isListClass (c : Char) : Bool :=
  isDigitChar c || c = ',' || isPySpace c || c = '&' || c = 'a' || c = 'n' || c = 'd'

/-- ASCII lower-casing of a string into a character list, modelling the
Python `str.lower()` call applied before classification. -/
def lowerList (s : String) : List Char :=
  s.toList.map Char.toLower

/-- Python `int(...)` on a non-empty digit string. -/
def natOfDigits (cs : List Char) : Nat :=
  cs.foldl (fun acc c => 10 * acc + (c.toNat - '0'.toNat)) 0

/-- Python `str.zfill(2)`: pad with leading zeros to length at least 2;
longer strings are returned unchanged. -/
def zfill2 (cs : List Char) : List Char :=
  if cs.length < 2 then List.replicate (2 - cs.length) '0' ++ cs else cs

/-- Python substring test `needle in hay`. -/
def containsSub (needle : List Char) : List Char → Bool
  | [] => needle.isEmpty
  | c :: rest => needle.isPrefixOf (c :: rest) || containsSub needle rest

/-- Python `str.strip()` (ASCII whitespace). -/
def pyStrip (s : List Char) : List Char :=
  ((s.dropWhile isPySpace).reverse.dropWhile isPySpace).reverse

/-- `tag.strip().lower()` as applied to discipline tags. -/
def stripLower (s : String) : List Char :=
  pyStrip (lowerList s)

/-! ## A small backtracking matcher

Each Python pattern used by the classifier is a fixed sequence of
literal alternations, character-class stars/plusses, optional tokens and
one negative lookahead. The combinators below reproduce the ordered
(first-alternative, greedy, backtracking) semantics of Python `re` for
exactly these constructs, in continuation-passing style. -/

def orO {α : Type} (a b : Option α) : Option α :=
  match a with
  | some v => some v
  | none => b

theorem orO_eq_some {α : Type} {a b : Option α} {v : α}
    (h : orO a b = some v) : a = some v ∨ b = some v := by
  cases a <;> simp [orO] at h <;> simp [h]

/-- Length of the maximal prefix of `s` whose characters satisfy `p`. -/
def classRun (p : Char → Bool) : List Char → Nat
  | [] => 0
  | c :: rest => if p c then classRun p rest + 1 else 0

/-- Match a literal token. -/
def matchLit {α : Type} (lit : List Char) (s : List Char)
    (k : List Char → Option α) : Option α :=
  if lit.isPrefixOf s then k (s.drop lit.length) else none

/-- Ordered alternation of literal tokens (`pour|p`, `to|-`, ...). -/
def matchAlt {α : Type} (lits : List (List Char)) (s : List Char)
    (k : List Char → Option α) : Option α :=
  match lits with
  | [] => none
  | l :: rest => orO (matchLit l s k) (matchAlt rest s k)

/-- Try the continuation after dropping `j, j-1, ..., 0` characters. -/
def tryFrom {α : Type} (s : List Char) (k : List Char → Option α) : Nat → Option α
  | 0 => k s
  | j + 1 => orO (k (s.drop (j + 1))) (tryFrom s k j)

/-- Greedy `class*` with backtracking. -/
def matchStar {α : Type} (p : Char → Bool) (s : List Char)
    (k : List Char → Option α) : Option α :=
  tryFrom s k (classRun p s)

/-- Try capturing `j, j-1, ..., 1` characters. -/
def tryCapFrom {α : Type} (s : List Char)
    (k : List Char → List Char → Option α) : Nat → Option α
  | 0 => none
  | j + 1 => orO (k (s.take (j + 1)) (s.drop (j + 1))) (tryCapFrom s k j)

/-- Greedy capturing `(class+)` with backtracking. -/
def matchPlusCap {α : Type} (p : Char → Bool) (s : List Char)
    (k : List Char → List Char → Option α) : Option α :=
  tryCapFrom s k (classRun p s)

/-- Greedy optional single character (`-?`). -/
def matchOptChar {α : Type} (c : Char) (s : List Char)
    (k : List Char → Option α) : Option α :=
  match s with
  | [] => k []
  | x :: rest => if x = c then orO (k rest) (k (x :: rest)) else k (x :: rest)

/-- Greedy optional alternation (`(tower|t)?`). -/
def matchOptAlt {α : Type} (lits : List (List Char)) (s : List Char)
    (k : List Char → Option α) : Option α :=
  orO (matchAlt lits s k) (k s)

theorem matchLit_eq_some {α : Type} {lit s : List Char} {k : List Char → Option α}
    {v : α} (h : matchLit lit s k = some v) : k (s.drop lit.length) = some v := by
  unfold matchLit at h
  split at h
  · exact h
  · exact absurd h (by simp)

theorem matchAlt_eq_some {α : Type} {lits : List (List Char)} {s : List Char}
    {k : List Char → Option α} {v : α}
    (h : matchAlt lits s k = some v) : ∃ n, k (s.drop n) = some v := by
  induction lits with
  | nil => exact absurd h (by simp [matchAlt])
  | cons l rest ih =>
    rcases orO_eq_some h with h' | h'
    · exact ⟨l.length, matchLit_eq_some h'⟩
    · exact ih h'

theorem tryFrom_eq_some {α : Type} {s : List Char} {k : List Char → Option α}
    {v : α} : ∀ {j : Nat}, tryFrom s k j = some v → ∃ n, k (s.drop n) = some v := by
  intro j
  induction j with
  | zero =>
    intro h
    exact ⟨0, by simpa using h⟩
  | succ j ih =>
    intro h
    rcases orO_eq_some h with h' | h'
    · exact ⟨j + 1, h'⟩
    · exact ih h'

theorem matchStar_eq_some {α : Type} {p : Char → Bool} {s : List Char}
    {k : List Char → Option α} {v : α}
    (h : matchStar p s k = some v) : ∃ n, k (s.drop n) = some v :=
  tryFrom_eq_some h

theorem matchOptChar_eq_some {α : Type} {c : Char} {s : List Char}
    {k : List Char → Option α} {v : α}
    (h : matchOptChar c s k = some v) : ∃ n, k (s.drop n) = some v := by
  unfold matchOptChar at h
  match s with
  | [] => exact ⟨0, h⟩
  | x :: rest =>
    simp only at h
    split at h
    · rcases orO_eq_some h with h' | h'
      · exact ⟨1, h'⟩
      · exact ⟨0, h'⟩
    · exact ⟨0, h⟩

theorem matchOptAlt_eq_some {α : Type} {lits : List (List Char)} {s : List Char}
    {k : List Char → Option α} {v : α}
    (h : matchOptAlt lits s k = some v) : ∃ n, k (s.drop n) = some v := by
  rcases orO_eq_some h with h' | h'
  · exact matchAlt_eq_some h'
  · exact ⟨0, h'⟩

theorem all_take_of_le_classRun {p : Char → Bool} :
    ∀ {s : List Char} {i : Nat}, i ≤ classRun p s → (s.take i).all p = true := by
  intro s
  induction s with
  | nil => intro i _; simp
  | cons c rest ih =>
    intro i hi
    unfold classRun at hi
    by_cases hc : p c
    · simp [hc] at hi
      match i with
      | 0 => simp
      | i + 1 =>
        have : i ≤ classRun p rest := Nat.lt_succ_iff.mp (Nat.lt_of_lt_of_le (Nat.lt_succ_self i) (by omega))
        simp [List.all_cons, hc, ih this]
    · simp [hc] at hi
      subst hi
      simp

theorem classRun_pos_ne_nil {p : Char → Bool} {s : List Char}
    (h : 1 ≤ classRun p s) : s ≠ [] := by
  intro hs
  subst hs
  simp [classRun] at h

theorem tryCapFrom_eq_some {α : Type} {s : List Char}
    {k : List Char → List Char → Option α} {v : α} :
    ∀ {j : Nat}, tryCapFrom s k j = some v →
      ∃ i, 1 ≤ i ∧ i ≤ j ∧ k (s.take i) (s.drop i) = some v := by
  intro j
  induction j with
  | zero => intro h; exact absurd h (by simp [tryCapFrom])
  | succ j ih =>
    intro h
    rcases orO_eq_some h with h' | h'
    · exact ⟨j + 1, by omega, Nat.le_refl _, h'⟩
    · rcases ih h' with ⟨i, h1, h2, h3⟩
      exact ⟨i, h1, Nat.le_succ_of_le h2, h3⟩

theorem matchPlusCap_eq_some {α : Type} {p : Char → Bool} {s : List Char}
    {k : List Char → List Char → Option α} {v : α}
    (h : matchPlusCap p s k = some v) :
    ∃ cap rest, cap ≠ [] ∧ cap.all p = true ∧ k cap rest = some v := by
  rcases tryCapFrom_eq_some h with ⟨i, h1, h2, h3⟩
  refine ⟨s.take i, s.drop i, ?_, all_take_of_le_classRun h2, h3⟩
  have hs : s ≠ [] := classRun_pos_ne_nil (Nat.le_trans h1 h2)
  match s, hs, i, h1 with
  | c :: rest, _, i + 1, _ => simp

/-! ## The concrete patterns of the classifier

All patterns operate on the already lower-cased description, so the
`re.IGNORECASE` flags of the source reduce to matching lower-case
literals. -/

def pourLit : List Char := "pour".toList
def pLit : List Char := "p".toList
def toLit : List Char := "to".toList
def dashLit : List Char := "-".toList
def towerLit : List Char := "tower".toList
def tLit : List Char := "t".toList
def andLit : List Char := "and".toList

/-- `common area|flat\s*no`, the marker pattern checked first by the pour
extraction (`common_pattern` in the source, line 306). -/
def commonAt (s : List Char) : Option (Unit × List Char) :=
  orO (matchLit "common area".toList s fun r => some ((), r))
      (matchLit "flat".toList s fun s1 =>
       matchStar isPySpace s1 fun s2 =>
       matchLit "no".toList s2 fun r => some ((), r))

/-- `flat\s*no`, the pattern used in the tower branch (line 411). -/
def flatNoAt (s : List Char) : Option (Unit × List Char) :=
  matchLit "flat".toList s fun s1 =>
  matchStar isPySpace s1 fun s2 =>
  matchLit "no".toList s2 fun r => some ((), r)

/-- `(?:pour|p)[-\s]*(\d+)[-\s]*(?:to|-)[-\s]*(\d+)` (line 335), with the
two captured numbers already converted by `int(...)`. -/
def rangeAt (s : List Char) : Option ((Nat × Nat) × List Char) :=
  matchAlt [pourLit, pLit] s fun s1 =>
  matchStar isDashSpace s1 fun s2 =>
  matchPlusCap isDigitChar s2 fun g1 s3 =>
  matchStar isDashSpace s3 fun s4 =>
  matchAlt [toLit, dashLit] s4 fun s5 =>
  matchStar isDashSpace s5 fun s6 =>
  matchPlusCap isDigitChar s6 fun g2 rest =>
  some ((natOfDigits g1, natOfDigits g2), rest)

/-- `(?:pour|p)[-\s]*([0-9,\s&and]+)` (line 349), returning the raw
captured run. -/
def listAt (s : List Char) : Option (List Char × List Char) :=
  matchAlt [pourLit, pLit] s fun s1 =>
  matchStar isDashSpace s1 fun s2 =>
  matchPlusCap isListClass s2 fun g rest => some (g, rest)

/-- The negative lookahead `(?!\s*(?:to|-)\s*\d+)` of the individual pour
pattern. -/
def lookToRange (s : List Char) : Bool :=
  (matchStar isPySpace s fun s1 =>
   matchAlt [toLit, dashLit] s1 fun s2 =>
   matchStar isPySpace s2 fun s3 =>
   matchPlusCap isDigitChar s3 fun _ _ => some ()).isSome

/-- `(?:pour|p)[-\s]*(\d+)(?!\s*(?:to|-)\s*\d+)` (line 366). -/
def indivAt (s : List Char) : Option (Nat × List Char) :=
  matchAlt [pourLit, pLit] s fun s1 =>
  matchStar isDashSpace s1 fun s2 =>
  matchPlusCap isDigitChar s2 fun g rest =>
  if lookToRange rest then none else some (natOfDigits g, rest)

/-- `(tower|t)\s*-?\s*(\d+)` (line 405), returning the captured digits of
group 2. -/
def towerAt (s : List Char) : Option (List Char × List Char) :=
  matchAlt [towerLit, tLit] s fun s1 =>
  matchStar isPySpace s1 fun s2 =>
  matchOptChar '-' s2 fun s3 =>
  matchStar isPySpace s3 fun s4 =>
  matchPlusCap isDigitChar s4 fun g rest =>
  some (g, rest)

/-- `(tower|t)\s*-?\s*(\d+)\s*([,&]|and)\s*(tower|t)?\s*-?\s*(\d+)`
(lines 406-410), returning the digit captures of groups 2 and 5. -/
def multiTowerAt (s : List Char) : Option ((List Char × List Char) × List Char) :=
  matchAlt [towerLit, tLit] s fun s1 =>
  matchStar isPySpace s1 fun s2 =>
  matchOptChar '-' s2 fun s3 =>
  matchStar isPySpace s3 fun s4 =>
  matchPlusCap isDigitChar s4 fun g2 s5 =>
  matchStar isPySpace s5 fun s6 =>
  matchAlt [[','], ['&'], andLit] s6 fun s7 =>
  matchStar isPySpace s7 fun s8 =>
  matchOptAlt [towerLit, tLit] s8 fun s9 =>
  matchStar isPySpace s9 fun s10 =>
  matchOptChar '-' s10 fun s11 =>
  matchStar isPySpace s11 fun s12 =>
  matchPlusCap isDigitChar s12 fun g5 rest =>
  some ((g2, g5), rest)

/-! ## `re.findall` / `re.search` scanning -/

/-- Fuelled scan reproducing `re.findall`: try the matcher at every
position from left to right and continue after the end of each
(necessarily non-empty) match. Called with fuel equal to the length of
the scanned text, which the matchers never exceed. -/
def scanAllF {γ : Type} (m : List Char → Option (γ × List Char)) :
    Nat → List Char → List γ
  | 0, _ => []
  | _ + 1, [] => []
  | fuel + 1, c :: rest =>
    match m (c :: rest) with
    | some (g, r) => g :: scanAllF m fuel (if r.length ≤ rest.length then r else rest)
    | none => scanAllF m fuel rest

def scanAll {γ : Type} (m : List Char → Option (γ × List Char)) (s : List Char) :
    List γ :=
  scanAllF m s.length s

/-- `re.search`: the group content of the leftmost match, if any. -/
def searchFirst {γ : Type} (m : List Char → Option (γ × List Char)) :
    List Char → Option γ
  | [] => Option.map Prod.fst (m [])
  | c :: rest => orO (Option.map Prod.fst (m (c :: rest))) (searchFirst m rest)

theorem scanAllF_mem {γ : Type} {m : List Char → Option (γ × List Char)} {g : γ} :
    ∀ {fuel : Nat} {s : List Char}, g ∈ scanAllF m fuel s →
      ∃ t r, m t = some (g, r) := by
  intro fuel
  induction fuel with
  | zero => intro s h; exact absurd h (by simp [scanAllF])
  | succ fuel ih =>
    intro s h
    match s with
    | [] => exact absurd h (by simp [scanAllF])
    | c :: rest =>
      rw [scanAllF] at h
      cases hm : m (c :: rest) with
      | none => rw [hm] at h; exact ih h
      | some gr =>
        rw [hm] at h
        rcases List.mem_cons.mp h with h' | h'
        · exact ⟨c :: rest, gr.2, by rw [hm, h']⟩
        · exact ih h'

theorem scanAll_mem {γ : Type} {m : List Char → Option (γ × List Char)}
    {s : List Char} {g : γ} (h : g ∈ scanAll m s) : ∃ t r, m t = some (g, r) :=
  scanAllF_mem h

theorem searchFirst_eq_some {γ : Type} {m : List Char → Option (γ × List Char)}
    {g : γ} : ∀ {s : List Char}, searchFirst m s = some g →
      ∃ t r, m t = some (g, r) := by
  intro s
  induction s with
  | nil =>
    intro h
    unfold searchFirst at h
    cases hm : m [] with
    | none => rw [hm] at h; exact absurd h (by simp)
    | some gr =>
      cases gr with
      | mk g1 r =>
        rw [hm] at h
        simp at h
        subst h
        exact ⟨[], r, hm⟩
  | cons c rest ih =>
    intro h
    unfold searchFirst at h
    rcases orO_eq_some h with h' | h'
    · cases hm : m (c :: rest) with
      | none => rw [hm] at h'; exact absurd h' (by simp)
      | some gr =>
        cases gr with
        | mk g1 r =>
          rw [hm] at h'
          simp at h'
          subst h'
          exact ⟨c :: rest, r, hm⟩
    · exact ih h'

/-! ## Pour extraction (source lines 328-377) -/

/-- The lowered description contains the `common area|flat\s*no` marker. -/
def hasCommonMarker (s : List Char) : Bool :=
  (searchFirst commonAt s).isSome

def rangeFindall (s : List Char) : List (Nat × Nat) :=
  scanAll rangeAt s

def listFindall (s : List Char) : List (List Char) :=
  scanAll listAt s

def indivFindall (s : List Char) : List Nat :=
  scanAll indivAt s

/-- `f"P{num}"`. -/
def pourLabel (n : Nat) : String :=
  "P" ++ toString n

/-- Python set insertion, kept as an order-insensitive duplicate-free
list; the extraction sorts the set before use. -/
def addPour (l : List String) (x : String) : List String :=
  if x ∈ l then l else l ++ [x]

/-- `range(start_num, end_num + 1)` mapped through `f"P{i}"`. -/
def expandRange (n m : Nat) : List String :=
  (List.range' n (m + 1 - n)).map pourLabel

/-- Tier 1: accepted range matches, expanded
(`if start_num <= end_num and end_num - start_num <= 20`). -/
def rangePours (s : List Char) : List String :=
  (rangeFindall s).foldl
    (fun acc nm =>
      if nm.1 ≤ nm.2 ∧ nm.2 - nm.1 ≤ 20 then (expandRange nm.1 nm.2).foldl addPour acc
      else acc) []

theorem dropWhile_length_le (p : Char → Bool) :
    ∀ l : List Char, (l.dropWhile p).length ≤ l.length := by
  intro l
  induction l with
  | nil => simp
  | cons c rest ih =>
    rw [List.dropWhile]
    split
    · exact Nat.le_succ_of_le ih
    · simp

/-- Fuelled maximal-digit-run scanner; the fuel never runs out when it
starts at the length of the scanned text. -/
def digitRunsF : Nat → List Char → List (List Char)
  | 0, _ => []
  | _ + 1, [] => []
  | fuel + 1, c :: rest =>
    if isDigitChar c then
      (c :: rest.takeWhile isDigitChar) :: digitRunsF fuel (rest.dropWhile isDigitChar)
    else
      digitRunsF fuel rest

/-- `re.findall(r"\d+", match)`: the maximal digit runs of a string. -/
def digitRuns (s : List Char) : List (List Char) :=
  digitRunsF s.length s

/-- Tier 2: every number `<= 50` embedded in a list-pattern capture. -/
def listPours (s : List Char) : List String :=
  (listFindall s).foldl
    (fun acc cap =>
      (digitRuns cap).foldl
        (fun a ds =>
          let n := natOfDigits ds
          if n ≤ 50 then addPour a (pourLabel n) else a) acc) []

/-- Tier 3: individual pour references `<= 50`. -/
def indivPours (s : List Char) : List String :=
  (indivFindall s).foldl
    (fun acc n => if n ≤ 50 then addPour acc (pourLabel n) else acc) []

/-- Lexicographic code-point comparison of character lists, the order
Python `sorted` uses on strings. -/
def charListLe : List Char → List Char → Bool
  | [], _ => true
  | _ :: _, [] => false
  | a :: as, b :: bs =>
    if a.toNat < b.toNat then true
    else if b.toNat < a.toNat then false
    else charListLe as bs

def strLe (a b : String) : Bool :=
  charListLe a.toList b.toList

theorem charListLe_total : ∀ a b : List Char,
    charListLe a b = true ∨ charListLe b a = true := by
  intro a
  induction a with
  | nil => intro b; exact Or.inl rfl
  | cons x xs ih =>
    intro b
    cases b with
    | nil => exact Or.inr rfl
    | cons y ys =>
      unfold charListLe
      by_cases h1 : x.toNat < y.toNat
      · left; simp [h1]
      · by_cases h2 : y.toNat < x.toNat
        · right; simp [h1, h2]
        · rcases ih ys with h | h
          · left; simp [h1, h2, h]
          · right; simp [h1, h2, h]

theorem charListLe_trans : ∀ a b c : List Char,
    charListLe a b = true → charListLe b c = true → charListLe a c = true := by
  intro a
  induction a with
  | nil => intro b c _ _; rfl
  | cons x xs ih =>
    intro b c hab hbc
    cases b with
    | nil => exact absurd hab (by simp [charListLe])
    | cons y ys =>
      cases c with
      | nil => exact absurd hbc (by simp [charListLe])
      | cons z zs =>
        unfold charListLe at hab hbc ⊢
        by_cases h1 : x.toNat < y.toNat
        · by_cases h2 : y.toNat < z.toNat
          · simp [show x.toNat < z.toNat by omega]
          · by_cases h3 : z.toNat < y.toNat
            · rw [if_neg h2, if_pos h3] at hbc
              exact absurd hbc (by simp)
            · simp [show x.toNat < z.toNat by omega]
        · by_cases h4 : y.toNat < x.toNat
          · rw [if_neg h1, if_pos h4] at hab
            exact absurd hab (by simp)
          · rw [if_neg h1, if_neg h4] at hab
            by_cases h2 : y.toNat < z.toNat
            · simp [show x.toNat < z.toNat by omega]
            · by_cases h3 : z.toNat < y.toNat
              · rw [if_neg h2, if_pos h3] at hbc
                exact absurd hbc (by simp)
              · rw [if_neg h2, if_neg h3] at hbc
                rw [if_neg (by omega), if_neg (by omega)]
                exact ih ys zs hab hbc

instance : IsTotal String (fun a b => strLe a b = true) :=
  ⟨fun a b => charListLe_total a.toList b.toList⟩

instance : IsTrans String (fun a b => strLe a b = true) :=
  ⟨fun a b c => charListLe_trans a.toList b.toList c.toList⟩

/-- Python `sorted` on strings (lexicographic by code point). -/
def sortStr (l : List String) : List String :=
  List.insertionSort (fun a b => strLe a b = true) l

/-- The pour extraction of the source (lines 329-377) on the lowered
description: the common-area/flat-no marker short-circuits everything;
otherwise the first non-empty tier of range / list / individual pours
wins and is returned sorted; if all tiers are empty the result defaults
to `["Common"]`. -/
def extractPours (d : List Char) : List String :=
  if hasCommonMarker d then ["Common"]
  else
    let s1 := rangePours d
    let s2 := if s1 = [] then listPours d else s1
    let s3 := if s2 = [] then indivPours d else s2
    if s3 = [] then ["Common"] else sortStr s3

/-- Pour extraction on a raw description string (the source lowers the
description before matching). -/
def pourExtract (desc : String) : List String :=
  extractPours (lowerList desc)

/-! ## Discipline categorization (source lines 379-393) -/

inductive DisciplineResult where
  /-- `discipline == "none" or not discipline`: the record is dropped. -/
  | dropped
  /-- `"hse" in discipline`: the record is skipped from standard NCR
  aggregation. -/
  | skippedHSE
  /-- The record is kept with the given category. -/
  | kept (cat : String)
deriving DecidableEq

def categorizeDisciplineL (d : List Char) : DisciplineResult :=
  if d = "none".toList ∨ d = [] then .dropped
  else if containsSub "hse".toList d then .skippedHSE
  else if containsSub "structure".toList d || containsSub "sw".toList d then .kept "SW"
  else if containsSub "civil".toList d || containsSub "finishing".toList d ||
          containsSub "fw".toList d then .kept "FW"
  else .kept "MEP"

def categorizeDiscipline (tag : String) : DisciplineResult :=
  categorizeDisciplineL (stripLower tag)

/-! ## Tower assignment (source lines 399-438) -/

def ofChars (cs : List Char) : String :=
  String.mk cs

/-- First tower-pattern match, zero-padded (`tower_matches[0][1].zfill(2)`). -/
def firstTowerName (ts : List (List Char)) : String :=
  match ts with
  | [] => "Common_Area"
  | t :: _ => "Eden-Tower-" ++ ofChars (zfill2 t)

def assignTower (d : List Char) : String :=
  if containsSub "eden clubhouse".toList d || containsSub "eden-clubhouse".toList d ||
     containsSub "eden club".toList d then "Eden-Club"
  else
    match searchFirst multiTowerAt d with
    | some (a, b) =>
        "Eden-Tower-" ++ ofChars (zfill2 a) ++ "-" ++ ofChars (zfill2 b) ++ "-CommonArea"
    | none =>
      let ts := scanAll towerAt d
      if (searchFirst flatNoAt d).isSome && !ts.isEmpty then firstTowerName ts
      else if containsSub "common area".toList d || ts.isEmpty then "Common_Area"
      else firstTowerName ts

/-! ## The NCR record normalizer (source lines 300-450) -/

/-- One row of the filtered dataframe as consumed by the cleaning loop
(dates already converted to strings by lines 292-294). -/
structure InputRecord where
  description : String
  discipline : String
  createdDate : String
  closeDate : String
  status : String
  days : Int
deriving DecidableEq

structure CleanedRecord where
  description : String
  discipline : String
  createdDate : String
  closeDate : String
  status : String
  days : Int
  tower : String
  pours : List String
  disciplineCategory : String
deriving DecidableEq

/-- The per-record body of the cleaning loop: drop empty descriptions,
extract pours, categorize the discipline (dropping `none`/empty and HSE
records), and assign the tower. -/
def classifyNCR (rec : InputRecord) : Option CleanedRecord :=
  let d := lowerList rec.description
  if d = [] then none
  else
    match categorizeDiscipline rec.discipline with
    | .dropped => none
    | .skippedHSE => none
    | .kept cat =>
        some { description := rec.description
               discipline := rec.discipline
               createdDate := rec.createdDate
               closeDate := rec.closeDate
               status := rec.status
               days := rec.days
               tower := assignTower d
               pours := extractPours d
               disciplineCategory := cat }

def cleanRecordsNCR (rows : List InputRecord) : List CleanedRecord :=
  rows.filterMap classifyNCR

/-- The duplicate-removal step of the source (lines 444-450):
`{tuple(sorted(d.items())) for d in cleaned_data}` hashes tuples that
contain the list-valued `"Pours"` field, which raises `TypeError` for
every non-empty input; the `except` branch logs and keeps the original
list (and on the empty input the comprehension yields the empty list
again), so the step always returns its input unchanged. -/
def pythonDedupNCR (l : List CleanedRecord) : List CleanedRecord :=
  l

/-! ## Association-list maps (Python dict with string keys)

`updateAssoc dflt l k f` initializes the key to the default bucket when
absent (the `if site not in ...: ... = {empty}` idiom) and then applies
the mutation, preserving dict insertion order. -/

def updateAssoc {β : Type} (dflt : β) : List (String × β) → String → (β → β) →
    List (String × β)
  | [], k, f => [(k, f dflt)]
  | (k', v) :: rest, k, f =>
    if k' = k then (k', f v) :: rest else (k', v) :: updateAssoc dflt rest k f

/-- `d.get(key, 0) + c` style counter update on an assoc list. -/
def bumpAssoc (pc : List (String × Int)) (key : String) (c : Int) :
    List (String × Int) :=
  updateAssoc 0 pc key (· + c)

/-! ## NCR aggregation (source lines 464-698) -/

/-- One value of `all_results[report_type]["Sites"]` (lines 566-578). -/
structure SiteData where
  descriptions : List String
  createdDates : List String
  closeDates : List String
  statuses : List String
  disciplines : List String
  pours : List (List String)
  sw : Int
  fw : Int
  mep : Int
  total : Int
  poursCount : List (String × Int)
deriving DecidableEq

def emptySite : SiteData :=
  { descriptions := [], createdDates := [], closeDates := [], statuses := []
    disciplines := [], pours := [], sw := 0, fw := 0, mep := 0, total := 0
    poursCount := [] }

/-- `all_results[report_type]`: the running sites map and grand total. -/
structure AggResult where
  sites : List (String × SiteData)
  grandTotal : Int
deriving DecidableEq

def emptyAgg : AggResult :=
  { sites := [], grandTotal := 0 }

def sumTotals (ss : List (String × SiteData)) : Int :=
  (ss.map (fun e => e.2.total)).sum

/-- The per-record bucket mutation of `process_chunk_locally`
(lines 683-696): append the record fields, bump the category counter when
it is one of SW/FW/MEP, bump the total, and bump the per-pour counters. -/
def bucketAddRecord (r : CleanedRecord) (b : SiteData) : SiteData :=
  let b1 := { b with descriptions := b.descriptions ++ [r.description]
                     createdDates := b.createdDates ++ [r.createdDate]
                     closeDates := b.closeDates ++ [r.closeDate]
                     statuses := b.statuses ++ [r.status]
                     disciplines := b.disciplines ++ [r.discipline]
                     pours := b.pours ++ [r.pours] }
  let b2 :=
    if r.disciplineCategory = "SW" then { b1 with sw := b1.sw + 1 }
    else if r.disciplineCategory = "FW" then { b1 with fw := b1.fw + 1 }
    else if r.disciplineCategory = "MEP" then { b1 with mep := b1.mep + 1 }
    else b1
  { b2 with total := b2.total + 1
            poursCount := r.pours.foldl (fun pc pour => bumpAssoc pc pour 1) b2.poursCount }

/-- One iteration of the `for record in chunk` loop of
`process_chunk_locally` (lines 663-698). -/
def localRecordNCR (acc : AggResult) (r : CleanedRecord) : AggResult :=
  { sites := updateAssoc emptySite acc.sites r.tower (bucketAddRecord r)
    grandTotal := acc.grandTotal + 1 }

/-- `process_chunk_locally(chunk, all_results, report_type)`. -/
def processChunkLocallyNCR (chunk : List CleanedRecord) (acc : AggResult) :
    AggResult :=
  chunk.foldl localRecordNCR acc

/-- Merging one parsed remote site entry into the running aggregate
(lines 579-590): lists are extended, counters and totals are summed, the
per-pour histogram is summed by key. -/
def mergeBucket (data : SiteData) (b : SiteData) : SiteData :=
  { descriptions := b.descriptions ++ data.descriptions
    createdDates := b.createdDates ++ data.createdDates
    closeDates := b.closeDates ++ data.closeDates
    statuses := b.statuses ++ data.statuses
    disciplines := b.disciplines ++ data.disciplines
    pours := b.pours ++ data.pours
    sw := b.sw + data.sw
    fw := b.fw + data.fw
    mep := b.mep + data.mep
    total := b.total + data.total
    poursCount := data.poursCount.foldl (fun pc e => bumpAssoc pc e.1 e.2) b.poursCount }

def mergeSitesNCR (remote : List (String × SiteData)) (ss : List (String × SiteData)) :
    List (String × SiteData) :=
  remote.foldl (fun cur e => updateAssoc emptySite cur e.1 (mergeBucket e.2)) ss

/-- Outcome of one chunk's remote call in the NCR path: either a parsed,
schema-correct response (its `"Sites"` object), or any failure (network
error, timeout, non-200 status, unparseable or schema-less JSON), which
the source answers with `process_chunk_locally`. -/
inductive RemoteOutcome where
  | success (sites : List (String × SiteData))
  | failure

/-- One iteration of the NCR chunk loop (lines 547-617): on a parsed
response, merge the remote site data and add the actual chunk length to
the grand total (line 593); on any failure, run the local fallback. -/
def stepChunkNCR (chunk : List CleanedRecord) (o : RemoteOutcome) (acc : AggResult) :
    AggResult :=
  match o with
  | .success sites =>
      { sites := mergeSitesNCR sites acc.sites
        grandTotal := acc.grandTotal + chunk.length }
  | .failure => processChunkLocallyNCR chunk acc

def runNCRFrom (steps : List (List CleanedRecord × RemoteOutcome)) (acc : AggResult) :
    AggResult :=
  steps.foldl (fun a e => stepChunkNCR e.1 e.2 a) acc

/-- The whole chunk loop, starting from
`{report_type: {"Sites": {}, "Grand_Total": 0}}` (line 464). -/
def runNCR (steps : List (List CleanedRecord × RemoteOutcome)) : AggResult :=
  runNCRFrom steps emptyAgg

/-- `cleaned_data[i:i + chunk_size]` slicing, fuelled by the list length. -/
def chunksOfF {α : Type} (n : Nat) : Nat → List α → List (List α)
  | 0, _ => []
  | _ + 1, [] => []
  | fuel + 1, x :: xs => ((x :: xs).take n) :: chunksOfF n fuel ((x :: xs).drop n)

def chunksOf {α : Type} (n : Nat) (l : List α) : List (List α) :=
  chunksOfF n l.length l

/-! ## Closed-NCR filtering and the pre-aggregation outcome
(source lines 200-453) -/

/-- One row of the input dataframe relevant to the Closed filter, with
dates as abstract day numbers; rows with a missing creation date are
already removed by line 225. -/
structure ClosedRow where
  created : Int
  closedOpt : Option Int
  status : String
  description : String
  discipline : String
deriving DecidableEq

/-- The `Days` column as computed on line 247 (close minus creation);
only ever used on rows whose close date is present. -/
def rowDays (r : ClosedRow) : Int :=
  r.closedOpt.getD 0 - r.created

/-- The Closed filter of lines 242-258: drop null close dates, then keep
`Status == "Closed"`, creation date within `[start_date, end_date]`, and
`Days > 21`. Both window bounds are compared against the creation date. -/
def closedFilter (startD endD : Int) (rows : List ClosedRow) : List ClosedRow :=
  (rows.filter (fun r => r.closedOpt.isSome)).filter
    (fun r => r.status == "Closed" && decide (startD ≤ r.created) &&
              decide (r.created ≤ endD) && decide (21 < rowDays r))

def toInput (r : ClosedRow) : InputRecord :=
  { description := r.description
    discipline := r.discipline
    createdDate := toString r.created
    closeDate := toString (r.closedOpt.getD 0)
    status := r.status
    days := rowDays r }

/-- How the Closed-report generator leaves its validation/filter/clean
phase: an error payload (`{"error": ...}`), the explicit empty-result
payload `{report_type: {"Sites": {}, "Grand_Total": 0}}` of line 453, or
the cleaned records handed to the chunk loop. -/
inductive PrepOutcome where
  | errorResult (msg : String)
  | emptySentinel
  | aggregate (cleaned : List CleanedRecord)
deriving DecidableEq

/-- Lines 203-453 for a Closed report with an explicit date window: empty
input and zero rows after filtering both return error payloads
(lines 206 and 288); only when filtering keeps rows but the cleaning loop
drops them all is the empty-result payload returned (line 453). -/
def ncrClosedPrep (rows : List ClosedRow) (startD endD : Int) : PrepOutcome :=
  if rows = [] then .errorResult "Empty DataFrame"
  else
    let filtered := closedFilter startD endD rows
    if filtered = [] then .errorResult "No Closed records found with duration > 21 days"
    else
      let cleaned := pythonDedupNCR (cleanRecordsNCR (filtered.map toInput))
      if cleaned = [] then .emptySentinel
      else .aggregate cleaned

/-! ## Housekeeping aggregation (source lines 708-1044) -/

/-- One value of `result["Housekeeping"]["Sites"]` / `result["Safety"]["Sites"]`. -/
structure CountSite where
  count : Int
  descriptions : List String
  createdDates : List String
  closeDates : List String
  statuses : List String
deriving DecidableEq

def emptyCountSite : CountSite :=
  { count := 0, descriptions := [], createdDates := [], closeDates := [], statuses := [] }

/-- The running Housekeeping/Safety aggregate. -/
structure CountAgg where
  sites : List (String × CountSite)
  grandTotal : Int
deriving DecidableEq

def emptyCountAgg : CountAgg :=
  { sites := [], grandTotal := 0 }

/-- A parsed remote response of the Housekeeping/Safety prompt: the
`"Sites"` object and the remote-reported `"Grand_Total"` value. -/
structure CountParsed where
  sites : List (String × CountSite)
  grandTotal : Int

/-- A cleaned Housekeeping/Safety record as sent in a chunk. `days` is
the `"Days"` value; `daysFromToday` is the `"Days_From_Today"` value,
which is only set on Open-path records (the cleaning loop adds the key
only for `report_type == "Open"`) and is 0 when the key is absent, as
`record.get(..., 0)` returns the default. -/
structure HSERecord where
  description : String
  createdDate : String
  closeDate : String
  status : String
  days : Int
  daysFromToday : Int
  discipline : String
  tower : String
deriving DecidableEq

/-- The Safety fallback branches read `record.get("Days_From_Reference", 0)`
(lines 1401, 1421, 1441, 1461, 1481); the cleaned records never carry a
`"Days_From_Reference"` key (only `"Days_From_Today"`), so the lookup
always yields the default 0. -/
def daysFromReference (_ : HSERecord) : Int :=
  0

/-- The housekeeping keyword list of lines 718-726. -/
def housekeepingKeywords : List String :=
  ["housekeeping", "cleaning", "cleanliness", "waste disposal", "waste management",
   "garbage", "trash", "rubbish", "debris", "litter", "dust", "untidy", "cluttered",
   "accumulation of waste", "construction waste", "pile of garbage", "poor housekeeping",
   "material storage", "construction debris", "cleaning schedule", "garbage collection",
   "waste bins", "dirty", "mess", "unclean", "disorderly", "dirty floor",
   "waste disposal area", "waste collection", "cleaning protocol", "sanitation",
   "trash removal", "waste accumulation", "unkept area", "refuse collection",
   "workplace cleanliness"]

/-- `is_housekeeping_record` (lines 728-734): any keyword occurs in the
lower-cased description. -/
def isHousekeepingRecord (description : String) : Bool :=
  housekeepingKeywords.any (fun kw => containsSub kw.toList (lowerList description))

/-- The safety keyword list of lines 1088-1103, kept verbatim: keywords
containing upper-case letters are compared against the lower-cased
description and therefore can never match. -/
def safetyKeywords : List String :=
  ["safety precautions", "temporary electricity",
   "on-site labor is working without wearing safety belt", "safety norms",
   "Missing Cabin Glass – Tower Crane", "Crane Operator cabin front glass",
   "site on priority basis lifeline is not fixed at the working place",
   "operated only after Third Party Inspection and certification crane operated without TPIC",
   "safety precautions are not taken seriously at site Tower crane operator cabin front glass is missing while crane operator is working inside cabin",
   "no barrier around",
   "Lock and Key arrangement to restrict unauthorized operations, buzzer while operation, gates at landing platforms, catch net in the vicinity",
   "safety precautions are not taken seriously", "firecase", "Health and Safety Plan",
   "noticed that submission of statistics report is regularly delayed",
   "crane operator cabin front glass is missing while crane operator is working inside cabin",
   "labor is working without wearing safety belt", "barricading", "tank", "safety shoes",
   "safety belt", "helmet", "lifeline", "guard rails", "fall protection", "PPE",
   "electrical hazard", "unsafe platform", "catch net", "edge protection", "TPI",
   "scaffold", "lifting equipment", "dust suppression", "debris chute", "spill control",
   "crane operator", "halogen lamps", "fall catch net", "environmental contamination",
   "fire hazard", " continuous down slope movement of soil",
   "continuous collapse of soil leading "]

/-- `is_safety_record` (lines 1105-1113). -/
def isSafetyRecord (description : String) : Bool :=
  safetyKeywords.any (fun kw => containsSub kw.toList (lowerList description))

/-- The record filter applied by every Housekeeping fallback branch
(e.g. line 936): keyword match, `Days > 7` or `Days_From_Today > 7`, and
`Discipline == "HSE"`. -/
def hkFallbackKeep (r : HSERecord) : Bool :=
  isHousekeepingRecord r.description &&
  (decide (7 < r.days) || decide (7 < r.daysFromToday)) &&
  r.discipline == "HSE"

/-- The record filter applied by every Safety fallback branch
(e.g. line 1401): keyword match, `Days > 7` or the always-absent
`Days_From_Reference` value `> 7`, and `Discipline == "HSE"`. -/
def safetyFallbackKeep (r : HSERecord) : Bool :=
  isSafetyRecord r.description &&
  (decide (7 < r.days) || decide (7 < daysFromReference r)) &&
  r.discipline == "HSE"

/-- Appending one record to its site bucket in a fallback branch. -/
def countSiteAdd (r : HSERecord) (b : CountSite) : CountSite :=
  { count := b.count + 1
    descriptions := b.descriptions ++ [r.description]
    createdDates := b.createdDates ++ [r.createdDate]
    closeDates := b.closeDates ++ [r.closeDate]
    statuses := b.statuses ++ [r.status] }

def hkFallbackStep (acc : CountAgg) (r : HSERecord) : CountAgg :=
  if hkFallbackKeep r then
    { sites := updateAssoc emptyCountSite acc.sites r.tower (countSiteAdd r)
      grandTotal := acc.grandTotal + 1 }
  else acc

def safetyFallbackStep (acc : CountAgg) (r : HSERecord) : CountAgg :=
  if safetyFallbackKeep r then
    { sites := updateAssoc emptyCountSite acc.sites r.tower (countSiteAdd r)
      grandTotal := acc.grandTotal + 1 }
  else acc

/-- Merging one parsed remote site entry (lines 913-929 / 1378-1394):
lists are extended and `Count` is summed. -/
def mergeCountSites (remote : List (String × CountSite)) (ss : List (String × CountSite)) :
    List (String × CountSite) :=
  remote.foldl
    (fun cur e =>
      updateAssoc emptyCountSite cur e.1
        (fun b => { count := b.count + e.2.count
                    descriptions := b.descriptions ++ e.2.descriptions
                    createdDates := b.createdDates ++ e.2.createdDates
                    closeDates := b.closeDates ++ e.2.closeDates
                    statuses := b.statuses ++ e.2.statuses })) ss

inductive HSEOutcome where
  | success (p : CountParsed)
  | failure

/-- One iteration of the Housekeeping chunk loop (lines 881-1031): a
parsed response is merged and the remote-reported `Grand_Total` is added
(line 930); any failure re-filters the chunk through `hkFallbackKeep`
and counts only the surviving records. -/
def stepChunkHK (chunk : List HSERecord) (o : HSEOutcome) (acc : CountAgg) : CountAgg :=
  match o with
  | .success p =>
      { sites := mergeCountSites p.sites acc.sites
        grandTotal := acc.grandTotal + p.grandTotal }
  | .failure => chunk.foldl hkFallbackStep acc

/-- One iteration of the Safety chunk loop (lines 1346-1496): a parsed
response is merged and the remote-reported `Grand_Total` is added
(line 1395); any failure re-filters the chunk through
`safetyFallbackKeep` and counts only the surviving records. -/
def stepChunkSafety (chunk : List HSERecord) (o : HSEOutcome) (acc : CountAgg) : CountAgg :=
  match o with
  | .success p =>
      { sites := mergeCountSites p.sites acc.sites
        grandTotal := acc.grandTotal + p.grandTotal }
  | .failure => chunk.foldl safetyFallbackStep acc

/-! ## Helper lemmas about pour sets -/

theorem addPour_mem {l : List String} {x y : String} :
    y ∈ addPour l x ↔ y ∈ l ∨ y = x := by
  unfold addPour
  split
  · rename_i hx
    constructor
    · exact Or.inl
    · rintro (h | h)
      · exact h
      · subst h; exact hx
  · simp

theorem mem_foldl_addPour {l : List String} :
    ∀ {acc : List String} {x : String}, x ∈ l.foldl addPour acc ↔ x ∈ acc ∨ x ∈ l := by
  induction l with
  | nil => intro acc x; simp
  | cons y t ih =>
    intro acc x
    rw [List.foldl_cons, ih, addPour_mem]
    simp
    tauto

theorem addPour_nodup {l : List String} {x : String} (h : l.Nodup) :
    (addPour l x).Nodup := by
  unfold addPour
  split
  · exact h
  · rename_i hx
    simp [List.nodup_append, h, hx]

theorem foldl_addPour_nodup {l : List String} :
    ∀ {acc : List String}, acc.Nodup → (l.foldl addPour acc).Nodup := by
  induction l with
  | nil => intro acc h; exact h
  | cons y t ih => intro acc h; exact ih (addPour_nodup h)

theorem foldl_preserves {α β : Type} (P : β → Prop) (f : β → α → β) :
    ∀ (l : List α), (∀ b a, a ∈ l → P b → P (f b a)) →
      ∀ (b : β), P b → P (l.foldl f b) := by
  intro l
  induction l with
  | nil => intro _ b h; exact h
  | cons a t ih =>
    intro hstep b h
    exact ih (fun b' a' ha' => hstep b' a' (List.mem_cons_of_mem a ha'))
      (f b a) (hstep b a (List.mem_cons_self a t) h)

/-- Every pour set built by the three tiers consists of `pourLabel`
strings and is duplicate-free. -/
def goodPourSet (l : List String) : Prop :=
  l.Nodup ∧ ∀ x ∈ l, ∃ n : Nat, x = pourLabel n

theorem goodPourSet_addPour {l : List String} {x : String}
    (h : goodPourSet l) (hx : ∃ n : Nat, x = pourLabel n) : goodPourSet (addPour l x) := by
  refine ⟨addPour_nodup h.1, ?_⟩
  intro y hy
  rcases addPour_mem.mp hy with h' | h'
  · exact h.2 y h'
  · subst h'; exact hx

theorem goodPourSet_rangePours (s : List Char) : goodPourSet (rangePours s) := by
  unfold rangePours
  refine foldl_preserves goodPourSet _ _ ?_ _ ⟨List.nodup_nil, by simp⟩
  intro b nm _ hb
  split
  · refine foldl_preserves goodPourSet _ _ ?_ _ hb
    intro b' x hx hb'
    refine goodPourSet_addPour hb' ?_
    rcases List.mem_map.mp hx with ⟨i, _, hi⟩
    exact ⟨i, hi.symm⟩
  · exact hb

theorem goodPourSet_listPours (s : List Char) : goodPourSet (listPours s) := by
  unfold listPours
  refine foldl_preserves goodPourSet _ _ ?_ _ ⟨List.nodup_nil, by simp⟩
  intro b cap _ hb
  refine foldl_preserves goodPourSet _ _ ?_ _ hb
  intro b' ds _ hb'
  dsimp only
  split
  · exact goodPourSet_addPour hb' ⟨natOfDigits ds, rfl⟩
  · exact hb'

theorem goodPourSet_indivPours (s : List Char) : goodPourSet (indivPours s) := by
  unfold indivPours
  refine foldl_preserves goodPourSet _ _ ?_ _ ⟨List.nodup_nil, by simp⟩
  intro b n _ hb
  dsimp only
  split
  · exact goodPourSet_addPour hb ⟨n, rfl⟩
  · exact hb

/-! ## Captured groups of the tower patterns are non-empty digit runs -/

theorem towerAt_digits {s g r : List Char} (h : towerAt s = some (g, r)) :
    g ≠ [] ∧ g.all isDigitChar = true := by
  unfold towerAt at h
  obtain ⟨n1, h1⟩ := matchAlt_eq_some h
  obtain ⟨n2, h2⟩ := matchStar_eq_some h1
  obtain ⟨n3, h3⟩ := matchOptChar_eq_some h2
  obtain ⟨n4, h4⟩ := matchStar_eq_some h3
  obtain ⟨cap, rest, hne, hall, h5⟩ := matchPlusCap_eq_some h4
  simp only [Option.some.injEq, Prod.mk.injEq] at h5
  obtain ⟨hg, -⟩ := h5
  subst hg
  exact ⟨hne, hall⟩

theorem multiTowerAt_digits {s a b r : List Char}
    (h : multiTowerAt s = some ((a, b), r)) :
    (a ≠ [] ∧ a.all isDigitChar = true) ∧ (b ≠ [] ∧ b.all isDigitChar = true) := by
  unfold multiTowerAt at h
  obtain ⟨n1, h1⟩ := matchAlt_eq_some h
  obtain ⟨n2, h2⟩ := matchStar_eq_some h1
  obtain ⟨n3, h3⟩ := matchOptChar_eq_some h2
  obtain ⟨n4, h4⟩ := matchStar_eq_some h3
  obtain ⟨cap2, rest2, hne2, hall2, h5⟩ := matchPlusCap_eq_some h4
  obtain ⟨n5, h6⟩ := matchStar_eq_some h5
  obtain ⟨n6, h7⟩ := matchAlt_eq_some h6
  obtain ⟨n7, h8⟩ := matchStar_eq_some h7
  obtain ⟨n8, h9⟩ := matchOptAlt_eq_some h8
  obtain ⟨n9, h10⟩ := matchStar_eq_some h9
  obtain ⟨n10, h11⟩ := matchOptChar_eq_some h10
  obtain ⟨n11, h12⟩ := matchStar_eq_some h11
  obtain ⟨cap5, rest5, hne5, hall5, h13⟩ := matchPlusCap_eq_some h12
  simp only [Option.some.injEq, Prod.mk.injEq] at h13
  obtain ⟨⟨ha, hb⟩, -⟩ := h13
  subst ha
  subst hb
  exact ⟨⟨hne2, hall2⟩, ⟨hne5, hall5⟩⟩

/-! ## The classifier output invariant -/

/-- The pour invariant actually maintained by the extraction: either the
default/common sentinel, or a non-empty lexicographically sorted,
duplicate-free list of `P<n>` labels. -/
def poursInvariant (l : List String) : Prop :=
  l = ["Common"] ∨
  (l ≠ [] ∧ l.Sorted (fun a b => strLe a b = true) ∧ l.Nodup ∧
   ∀ x ∈ l, ∃ n : Nat, x = pourLabel n)

/-- The tower invariant actually maintained by `assignTower`: the club
and common-area names, or tower names built from non-empty digit runs
padded with `zfill(2)` (so at least two digits, but possibly more). -/
def towerInvariant (t : String) : Prop :=
  t = "Eden-Club" ∨ t = "Common_Area" ∨
  (∃ a : List Char, a ≠ [] ∧ a.all isDigitChar = true ∧
     t = "Eden-Tower-" ++ ofChars (zfill2 a)) ∨
  (∃ a b : List Char, a ≠ [] ∧ a.all isDigitChar = true ∧ b ≠ [] ∧
     b.all isDigitChar = true ∧
     t = "Eden-Tower-" ++ ofChars (zfill2 a) ++ "-" ++ ofChars (zfill2 b) ++ "-CommonArea")

theorem sortStr_invariant {l : List String} (hgood : goodPourSet l) (hne : l ≠ []) :
    poursInvariant (sortStr l) := by
  refine Or.inr ⟨?_, List.sorted_insertionSort _ l,
    (List.perm_insertionSort _ l).nodup_iff.mpr hgood.1, ?_⟩
  · intro hnil
    have hp : List.Perm (sortStr l) l := List.perm_insertionSort _ l
    rw [hnil] at hp
    exact hne hp.symm.eq_nil
  · intro x hx
    exact hgood.2 x ((List.mem_insertionSort _).mp hx)

theorem extractPours_invariant (d : List Char) : poursInvariant (extractPours d) := by
  unfold extractPours
  by_cases hmk : hasCommonMarker d = true
  · simp [hmk, poursInvariant]
  · by_cases h1 : rangePours d = []
    · by_cases h2 : listPours d = []
      · by_cases h3 : indivPours d = []
        · simp [hmk, h1, h2, h3, poursInvariant]
        · simpa [hmk, h1, h2, h3] using sortStr_invariant (goodPourSet_indivPours d) h3
      · simpa [hmk, h1, h2] using sortStr_invariant (goodPourSet_listPours d) h2
    · simpa [hmk, h1] using sortStr_invariant (goodPourSet_rangePours d) h1

theorem firstTowerName_invariant {d : List Char} (h : scanAll towerAt d ≠ []) :
    towerInvariant (firstTowerName (scanAll towerAt d)) := by
  cases hts : scanAll towerAt d with
  | nil => exact absurd hts h
  | cons t rest =>
    obtain ⟨u, r, hm⟩ :=
      scanAll_mem (g := t) (m := towerAt) (s := d) (hts ▸ List.mem_cons_self t rest)
    obtain ⟨h1, h2⟩ := towerAt_digits hm
    exact Or.inr (Or.inr (Or.inl ⟨t, h1, h2, rfl⟩))

theorem assignTower_invariant (d : List Char) : towerInvariant (assignTower d) := by
  unfold assignTower
  by_cases hclub : (containsSub "eden clubhouse".toList d ||
      containsSub "eden-clubhouse".toList d || containsSub "eden club".toList d) = true
  · rw [if_pos hclub]
    exact Or.inl rfl
  · rw [if_neg hclub]
    cases hmulti : searchFirst multiTowerAt d with
    | some ab =>
      obtain ⟨a, b⟩ := ab
      obtain ⟨t, r, hm⟩ := searchFirst_eq_some hmulti
      obtain ⟨⟨ha1, ha2⟩, hb1, hb2⟩ := multiTowerAt_digits hm
      exact Or.inr (Or.inr (Or.inr ⟨a, b, ha1, ha2, hb1, hb2, rfl⟩))
    | none =>
      show towerInvariant
        (if ((searchFirst flatNoAt d).isSome && !(scanAll towerAt d).isEmpty) = true
         then firstTowerName (scanAll towerAt d)
         else if (containsSub "common area".toList d || (scanAll towerAt d).isEmpty) = true
         then "Common_Area" else firstTowerName (scanAll towerAt d))
      by_cases hflat : ((searchFirst flatNoAt d).isSome && !(scanAll towerAt d).isEmpty) = true
      · rw [if_pos hflat]
        refine firstTowerName_invariant ?_
        intro hnil
        simp [hnil] at hflat
      · rw [if_neg hflat]
        by_cases hcommon : (containsSub "common area".toList d ||
            (scanAll towerAt d).isEmpty) = true
        · rw [if_pos hcommon]
          exact Or.inr (Or.inl rfl)
        · rw [if_neg hcommon]
          refine firstTowerName_invariant ?_
          intro hnil
          simp [hnil] at hcommon

/-! ## Totals bookkeeping for the local NCR aggregation -/

theorem updateAssoc_sum {β : Type} (g : β → Int) (dflt : β) (h0 : g dflt = 0)
    (f : β → β) (c : Int) (hf : ∀ b, g (f b) = g b + c) :
    ∀ (l : List (String × β)) (k : String),
      ((updateAssoc dflt l k f).map (fun e => g e.2)).sum
        = (l.map (fun e => g e.2)).sum + c := by
  intro l
  induction l with
  | nil =>
    intro k
    simp [updateAssoc, hf, h0]
  | cons e rest ih =>
    intro k
    obtain ⟨k', v⟩ := e
    by_cases hk : k' = k
    · simp only [updateAssoc, if_pos hk, List.map_cons, List.sum_cons, hf]
      ring
    · simp only [updateAssoc, if_neg hk, List.map_cons, List.sum_cons, ih k]
      ring

theorem bucketAddRecord_total (r : CleanedRecord) (b : SiteData) :
    (bucketAddRecord r b).total = b.total + 1 := by
  unfold bucketAddRecord
  split_ifs <;> rfl

theorem localRecordNCR_sumTotals (acc : AggResult) (r : CleanedRecord) :
    sumTotals (localRecordNCR acc r).sites = sumTotals acc.sites + 1 :=
  updateAssoc_sum SiteData.total emptySite rfl (bucketAddRecord r) 1
    (bucketAddRecord_total r) acc.sites r.tower

theorem processChunkLocallyNCR_sums (chunk : List CleanedRecord) :
    ∀ acc : AggResult,
      sumTotals (processChunkLocallyNCR chunk acc).sites
          = sumTotals acc.sites + (chunk.length : Int) ∧
      (processChunkLocallyNCR chunk acc).grandTotal
          = acc.grandTotal + (chunk.length : Int) := by
  induction chunk with
  | nil => intro acc; simp [processChunkLocallyNCR]
  | cons r rest ih =>
    intro acc
    have hstep := ih (localRecordNCR acc r)
    unfold processChunkLocallyNCR at hstep ⊢
    rw [List.foldl_cons]
    refine ⟨?_, ?_⟩
    · rw [hstep.1, localRecordNCR_sumTotals]
      push_cast [List.length_cons]
      ring
    · rw [hstep.2]
      show acc.grandTotal + 1 + (rest.length : Int) = _
      push_cast [List.length_cons]
      ring

theorem runNCRFrom_local (chunks : List (List CleanedRecord)) :
    ∀ acc : AggResult,
      sumTotals (runNCRFrom (chunks.map (fun c => (c, RemoteOutcome.failure))) acc).sites
          = sumTotals acc.sites + ((chunks.map List.length).sum : Int) ∧
      (runNCRFrom (chunks.map (fun c => (c, RemoteOutcome.failure))) acc).grandTotal
          = acc.grandTotal + ((chunks.map List.length).sum : Int) := by
  induction chunks with
  | nil => intro acc; simp [runNCRFrom]
  | cons c rest ih =>
    intro acc
    have hloc := processChunkLocallyNCR_sums c acc
    have hrest := ih (processChunkLocallyNCR c acc)
    unfold runNCRFrom at hrest ⊢
    rw [List.map_cons, List.foldl_cons]
    refine ⟨?_, ?_⟩
    · rw [show stepChunkNCR c RemoteOutcome.failure acc = processChunkLocallyNCR c acc from rfl,
        hrest.1, hloc.1]
      simp only [List.map_cons, List.sum_cons]
      push_cast
      ring
    · rw [show stepChunkNCR c RemoteOutcome.failure acc = processChunkLocallyNCR c acc from rfl,
        hrest.2, hloc.2]
      simp only [List.map_cons, List.sum_cons]
      push_cast
      ring

theorem chunksOfF_flatten {α : Type} (n : Nat) (hn : 0 < n) :
    ∀ (fuel : Nat) (l : List α), l.length ≤ fuel → (chunksOfF n fuel l).flatten = l := by
  intro fuel
  induction fuel with
  | zero =>
    intro l h
    match l with
    | [] => simp [chunksOfF]
  | succ fuel ih =>
    intro l h
    match l with
    | [] => simp [chunksOfF]
    | x :: xs =>
      rw [chunksOfF, List.flatten_cons]
      have hxs : xs.length + 1 ≤ fuel + 1 := by simpa using h
      have hd : ((x :: xs).drop n).length ≤ fuel := by
        simp only [List.length_drop, List.length_cons]
        omega
      rw [ih _ hd, List.take_append_drop]

theorem chunksOf_flatten {α : Type} (n : Nat) (hn : 0 < n) (l : List α) :
    (chunksOf n l).flatten = l :=
  chunksOfF_flatten n hn l.length l (Nat.le_refl _)

theorem chunksOf_length_sum {α : Type} (n : Nat) (hn : 0 < n) (l : List α) :
    ((chunksOf n l).map List.length).sum = l.length := by
  rw [← List.length_flatten, chunksOf_flatten n hn]

/-! ## Reference definitions written from the claim wording

These two definitions follow the words of the specification (not the
source); they exist only to be compared with the behaviour embedded from
the source. -/

/-- The Closed-report retention predicate as the specification words it:
status Closed, non-null close date, age above 21 days, creation date at
or after the lower bound and close date at or before the upper bound. -/
def specClosedRetain (startD endD : Int) (r : ClosedRow) : Bool :=
  r.status == "Closed" && r.closedOpt.isSome && decide (21 < rowDays r) &&
  decide (startD ≤ r.created) && decide (r.closedOpt.getD 0 ≤ endD)

/-- The tower-name format as the specification words it: `"Eden-Club"`,
`"Common_Area"`, `"Eden-Tower-<NN>"`, or
`"Eden-Tower-<NN>-<MM>-CommonArea"` with exactly two-digit zero-padded
numbers. -/
def specTowerForm (t : String) : Bool :=
  t == "Eden-Club" || t == "Common_Area" ||
  (t.toList.take 11 == "Eden-Tower-".toList &&
    (let r := t.toList.drop 11
     (r.length == 2 && r.all isDigitChar) ||
     (match r with
      | a :: b :: c :: e :: f :: rest =>
        isDigitChar a && isDigitChar b && c == '-' && isDigitChar e && isDigitChar f &&
        rest == "-CommonArea".toList
      | _ => false)))

/-! ## Membership in a single accepted pour range -/

theorem rangePours_single {s : List Char} {n m : Nat}
    (hfind : rangeFindall s = [(n, m)]) (h1 : n ≤ m) (h2 : m - n ≤ 20) :
    ∀ x, x ∈ rangePours s ↔ ∃ i, n ≤ i ∧ i ≤ m ∧ x = pourLabel i := by
  intro x
  unfold rangePours
  rw [hfind]
  rw [List.foldl_cons, List.foldl_nil]
  rw [if_pos ⟨h1, h2⟩]
  rw [mem_foldl_addPour]
  simp only [List.not_mem_nil, false_or]
  unfold expandRange
  rw [List.mem_map]
  constructor
  · rintro ⟨i, hi, rfl⟩
    rw [List.mem_range'_1] at hi
    exact ⟨i, hi.1, by omega, rfl⟩
  · rintro ⟨i, hni, him, rfl⟩
    exact ⟨i, List.mem_range'_1.mpr ⟨hni, by omega⟩, rfl⟩

/-! ## Concrete inputs used in the counterexamples and witnesses -/

def c1Record : CleanedRecord :=
  { description := "cable tray unsupported", discipline := "Electrical"
    createdDate := "2024-01-01", closeDate := "2024-02-01", status := "Closed"
    days := 31, tower := "Common_Area", pours := ["Common"]
    disciplineCategory := "MEP" }

/-- A schema-valid remote response for a one-record chunk whose per-site
`Total` is wrong (5 instead of 1). -/
def c1BadRemote : List (String × SiteData) :=
  [("Common_Area",
    { descriptions := ["cable tray unsupported"], createdDates := ["2024-01-01"]
      closeDates := ["2024-02-01"], statuses := ["Closed"]
      disciplines := ["Electrical"], pours := [["Common"]]
      sw := 0, fw := 0, mep := 1, total := 5, poursCount := [("Common", 1)] })]

def hkRecordC2 : HSERecord :=
  { description := "garbage not cleared near gate", createdDate := "2024-01-01"
    closeDate := "2024-01-20", status := "Closed", days := 19, daysFromToday := 0
    discipline := "HSE", tower := "Common_Area" }

/-- A parsed remote Housekeeping response for a one-record chunk whose
reported `Grand_Total` is 42. -/
def hkParsed42 : CountParsed :=
  { sites := [("Common_Area",
      { count := 1, descriptions := ["garbage not cleared near gate"]
        createdDates := ["2024-01-01"], closeDates := ["2024-01-20"]
        statuses := ["Closed"] })]
    grandTotal := 42 }

/-- An Open-path Safety record whose description contains none of the
safety keywords: it enters `cleaned_data` through the
`Discipline == "HSE"` disjunct of the Open filter, but the fallback
re-filter drops it. -/
def safetyRecC3 : HSERecord :=
  { description := "documentation pending", createdDate := "2024-01-01"
    closeDate := "", status := "Open", days := 10, daysFromToday := 20
    discipline := "HSE", tower := "Common_Area" }

def rowCexC7 : ClosedRow :=
  { created := 0, closedOpt := some 100, status := "Closed"
    description := "slab crack", discipline := "civil" }

def rowOpenC8 : ClosedRow :=
  { created := 0, closedOpt := some 30, status := "Open"
    description := "leaking joint", discipline := "civil" }

def rowNoneC8 : ClosedRow :=
  { created := 0, closedOpt := some 30, status := "Closed"
    description := "leaking joint", discipline := "none" }

def rowDupC9 : InputRecord :=
  { description := "tower 5 leaking pipe", discipline := "plumbing"
    createdDate := "2024-01-01", closeDate := "2024-02-01", status := "Closed"
    days := 31 }

def rowTower123 : InputRecord :=
  { description := "tower 123 water leakage", discipline := "plumbing"
    createdDate := "2024-01-01", closeDate := "2024-02-01", status := "Closed"
    days := 31 }

def c10WitnessRow : InputRecord :=
  { description := "pour 3 to 6 tower 4", discipline := "civil"
    createdDate := "2024-01-01", closeDate := "2024-02-01", status := "Closed"
    days := 31 }

def c10WitnessClean : CleanedRecord :=
  { description := "pour 3 to 6 tower 4", discipline := "civil"
    createdDate := "2024-01-01", closeDate := "2024-02-01", status := "Closed"
    days := 31, tower := "Eden-Tower-04", pours := ["P3", "P4", "P5", "P6"]
    disciplineCategory := "FW" }

/-! ## Claim theorems -/

/-- C1 (counterexample): the claimed invariant
`sum(SiteBucket.Total) == Grand_Total == count(input records)` fails on a
completed aggregation in which one chunk is merged from a schema-valid
remote response with a wrong per-site `Total`: the merge loop trusts the
remote per-site totals (line 588), so the site totals sum to 5 while the
grand total and the input count are 1. -/
theorem c1_total_invariant_counterexample :
    sumTotals (runNCR [([c1Record], RemoteOutcome.success c1BadRemote)]).sites = 5 ∧
    (runNCR [([c1Record], RemoteOutcome.success c1BadRemote)]).grandTotal = 1 ∧
    [c1Record].length = 1 := by
  refine ⟨by decide, by decide, rfl⟩

/-- C1 (amended): for an aggregation in which every chunk is processed by
the local fallback, the sum of the per-site `Total` values equals the
grand total, and both equal the number of cleaned input records; for
remote-parsed chunks the per-site totals are taken from the remote
response and the equality can fail. -/
theorem c1_total_invariant_local (cd : List CleanedRecord) (n : Nat) (hn : 0 < n) :
    sumTotals (runNCR ((chunksOf n cd).map (fun c => (c, RemoteOutcome.failure)))).sites
      = (runNCR ((chunksOf n cd).map (fun c => (c, RemoteOutcome.failure)))).grandTotal ∧
    (runNCR ((chunksOf n cd).map (fun c => (c, RemoteOutcome.failure)))).grandTotal
      = (cd.length : Int) := by
  have h := runNCRFrom_local (chunksOf n cd) emptyAgg
  have hsum : ((chunksOf n cd).map List.length).sum = cd.length :=
    chunksOf_length_sum n hn cd
  unfold runNCR
  constructor
  · rw [h.1, h.2]
    rfl
  · rw [h.2, hsum]
    show (0 : Int) + (cd.length : Int) = (cd.length : Int)
    ring

theorem c1_total_invariant_local_witness :
    0 < 2 ∧
    (sumTotals (runNCR ((chunksOf 2 [c1Record]).map (fun c => (c, RemoteOutcome.failure)))).sites
        = (runNCR ((chunksOf 2 [c1Record]).map (fun c => (c, RemoteOutcome.failure)))).grandTotal ∧
      (runNCR ((chunksOf 2 [c1Record]).map (fun c => (c, RemoteOutcome.failure)))).grandTotal
        = ([c1Record].length : Int)) :=
  ⟨by decide, c1_total_invariant_local [c1Record] 2 (by decide)⟩

/-- C2 (counterexample): in the Housekeeping path a successfully parsed
chunk increments the running `Grand_Total` by the remote-reported value
(line 930), not by the chunk length: a one-record chunk whose response
reports `Grand_Total = 42` pushes the running total to 42. The Safety
path (line 1395) does the same. -/
theorem c2_remote_total_counterexample :
    (stepChunkHK [hkRecordC2] (HSEOutcome.success hkParsed42) emptyCountAgg).grandTotal = 42 ∧
    [hkRecordC2].length = 1 := by
  refine ⟨by decide, rfl⟩

/-- C2 (amended): only the NCR path increments the running grand total by
the actual chunk length, on both the remote-success path (line 593) and
the local fallback; the Safety and Housekeeping success paths add the
remote-reported `Grand_Total` instead. -/
theorem c2_ncr_grand_total_by_chunk_length (chunk : List CleanedRecord)
    (o : RemoteOutcome) (acc : AggResult) :
    (stepChunkNCR chunk o acc).grandTotal = acc.grandTotal + (chunk.length : Int) := by
  cases o with
  | success sites => rfl
  | failure => exact (processChunkLocallyNCR_sums chunk acc).2

/-- C3 (counterexample): the Safety fallback does not account for every
record of a failed chunk: it re-filters through the keyword/days/HSE
predicate (line 1401), so a chunk record without safety keywords is
silently dropped and the aggregate stays empty. -/
theorem c3_fallback_drops_record_counterexample :
    stepChunkSafety [safetyRecC3] HSEOutcome.failure emptyCountAgg = emptyCountAgg ∧
    [safetyRecC3].length = 1 := by
  refine ⟨by decide, rfl⟩

/-- C3 (amended): in the NCR path the local fallback accounts for every
record of the chunk exactly once — both the sum of per-site totals and
the grand total grow by exactly the chunk length; the Safety and
Housekeeping fallbacks only count records passing their keyword/days/HSE
re-filter. -/
theorem c3_ncr_fallback_accounts_all (chunk : List CleanedRecord) (acc : AggResult) :
    sumTotals (processChunkLocallyNCR chunk acc).sites
      = sumTotals acc.sites + (chunk.length : Int) ∧
    (processChunkLocallyNCR chunk acc).grandTotal
      = acc.grandTotal + (chunk.length : Int) :=
  processChunkLocallyNCR_sums chunk acc

/-- C4: pour extraction. A description with a common-area/flat-no marker
yields exactly `["Common"]`, short-circuiting the other patterns; a
description whose single range match `(n, m)` satisfies `n ≤ m` and
`m - n ≤ 20` yields exactly the labels `P n ... P m`; a description
matching no pattern defaults to `["Common"]`. -/
theorem c4_pour_extraction :
    (∀ d : String, hasCommonMarker (lowerList d) = true → pourExtract d = ["Common"]) ∧
    (∀ (d : String) (n m : Nat), hasCommonMarker (lowerList d) = false →
      rangeFindall (lowerList d) = [(n, m)] → n ≤ m → m - n ≤ 20 →
      ∀ x, x ∈ pourExtract d ↔ ∃ i, n ≤ i ∧ i ≤ m ∧ x = pourLabel i) ∧
    (∀ d : String, hasCommonMarker (lowerList d) = false →
      rangePours (lowerList d) = [] → listPours (lowerList d) = [] →
      indivPours (lowerList d) = [] → pourExtract d = ["Common"]) := by
  refine ⟨?_, ?_, ?_⟩
  · intro d hmk
    unfold pourExtract extractPours
    rw [if_pos hmk]
  · intro d n m hmk hfind h1 h2 x
    have hmem := rangePours_single hfind h1 h2
    have hne : rangePours (lowerList d) ≠ [] := by
      intro hnil
      have : pourLabel n ∈ rangePours (lowerList d) :=
        (hmem (pourLabel n)).mpr ⟨n, Nat.le_refl n, h1, rfl⟩
      rw [hnil] at this
      exact absurd this (List.not_mem_nil _)
    unfold pourExtract extractPours
    rw [if_neg (by simp [hmk])]
    simp only [if_neg hne]
    exact (List.mem_insertionSort _).trans (hmem x)
  · intro d hmk h1 h2 h3
    unfold pourExtract extractPours
    rw [if_neg (by simp [hmk])]
    simp [h1, h2, h3]

theorem c4_pour_extraction_witness :
    pourExtract "common area pour 3" = ["Common"] ∧
    (∀ x, x ∈ pourExtract "pour 3 to 6" ↔ ∃ i, 3 ≤ i ∧ i ≤ 6 ∧ x = pourLabel i) ∧
    pourExtract "nothing matches" = ["Common"] :=
  ⟨c4_pour_extraction.1 "common area pour 3" (by decide),
   fun x => c4_pour_extraction.2.1 "pour 3 to 6" 3 6 (by decide) (by decide)
     (by decide) (by decide) x,
   c4_pour_extraction.2.2 "nothing matches" (by decide) (by decide) (by decide) (by decide)⟩

/-- C5: a description whose only pour-range match has `end - start > 20`
contributes no range pours, and extraction falls through to the list
tier, then the individual tier, instead of returning the expanded
range. -/
theorem c5_rejected_range_falls_through (d : String) (n m : Nat)
    (hmk : hasCommonMarker (lowerList d) = false)
    (hfind : rangeFindall (lowerList d) = [(n, m)])
    (hgt : 20 < m - n) :
    rangePours (lowerList d) = [] ∧
    pourExtract d =
      (if listPours (lowerList d) = [] then
        (if indivPours (lowerList d) = [] then ["Common"]
         else sortStr (indivPours (lowerList d)))
       else sortStr (listPours (lowerList d))) := by
  have hr : rangePours (lowerList d) = [] := by
    unfold rangePours
    rw [hfind, List.foldl_cons, List.foldl_nil]
    rw [if_neg (by omega)]
  refine ⟨hr, ?_⟩
  unfold pourExtract extractPours
  rw [if_neg (by simp [hmk])]
  by_cases h2 : listPours (lowerList d) = []
  · by_cases h3 : indivPours (lowerList d) = []
    · simp [hr, h2, h3]
    · simp [hr, h2, h3]
  · simp [hr, h2]

theorem c5_rejected_range_witness :
    rangeFindall (lowerList "pour 25 to 99") = [(25, 99)] ∧
    rangePours (lowerList "pour 25 to 99") = [] ∧
    pourExtract "pour 25 to 99" = ["P25"] := by
  have h := c5_rejected_range_falls_through "pour 25 to 99" 25 99
    (by decide) (by decide) (by decide)
  refine ⟨by decide, h.1, ?_⟩
  rw [h.2]
  decide

/-- C6 (counterexample): the discipline tag `"Structural Works"` is
classified MEP, not SW: after lower-casing it contains neither the
substring `"structure"` nor `"sw"`, so it falls to the default branch. -/
theorem c6_structural_works_counterexample :
    categorizeDiscipline "Structural Works" = DisciplineResult.kept "MEP" ∧
    categorizeDiscipline "Structural Works" ≠ DisciplineResult.kept "SW" := by
  refine ⟨by decide, by decide⟩

/-- C6 (amended): after strip/lower-casing the tag, an empty tag or the
literal `"none"` drops the record; otherwise a tag containing `"hse"` is
HSE and skipped; otherwise a tag containing `"structure"` or `"sw"` is
SW (`"Structural Works"` contains neither and is MEP); otherwise a tag
containing `"civil"`, `"finishing"` or `"fw"` is FW; anything else is
MEP. -/
theorem c6_discipline_categorization (tag : String) :
    (stripLower tag = [] ∨ stripLower tag = "none".toList →
       categorizeDiscipline tag = DisciplineResult.dropped) ∧
    (stripLower tag ≠ [] → stripLower tag ≠ "none".toList →
       containsSub "hse".toList (stripLower tag) = true →
       categorizeDiscipline tag = DisciplineResult.skippedHSE) ∧
    (stripLower tag ≠ [] → stripLower tag ≠ "none".toList →
       containsSub "hse".toList (stripLower tag) = false →
       (containsSub "structure".toList (stripLower tag) = true ∨
        containsSub "sw".toList (stripLower tag) = true) →
       categorizeDiscipline tag = DisciplineResult.kept "SW") ∧
    (stripLower tag ≠ [] → stripLower tag ≠ "none".toList →
       containsSub "hse".toList (stripLower tag) = false →
       containsSub "structure".toList (stripLower tag) = false →
       containsSub "sw".toList (stripLower tag) = false →
       (containsSub "civil".toList (stripLower tag) = true ∨
        containsSub "finishing".toList (stripLower tag) = true ∨
        containsSub "fw".toList (stripLower tag) = true) →
       categorizeDiscipline tag = DisciplineResult.kept "FW") ∧
    (stripLower tag ≠ [] → stripLower tag ≠ "none".toList →
       containsSub "hse".toList (stripLower tag) = false →
       containsSub "structure".toList (stripLower tag) = false →
       containsSub "sw".toList (stripLower tag) = false →
       containsSub "civil".toList (stripLower tag) = false →
       containsSub "finishing".toList (stripLower tag) = false →
       containsSub "fw".toList (stripLower tag) = false →
       categorizeDiscipline tag = DisciplineResult.kept "MEP") := by
  refine ⟨?_, ?_, ?_, ?_, ?_⟩
  · intro h
    unfold categorizeDiscipline categorizeDisciplineL
    rw [if_pos (by tauto)]
  · intro h1 h2 h3
    unfold categorizeDiscipline categorizeDisciplineL
    rw [if_neg (by tauto), if_pos h3]
  · intro h1 h2 h3 h4
    unfold categorizeDiscipline categorizeDisciplineL
    rw [if_neg (by tauto), if_neg (by rw [h3]; simp),
      if_pos (by rcases h4 with h | h <;> rw [h] <;> simp)]
  · intro h1 h2 h3 h4 h5 h6
    unfold categorizeDiscipline categorizeDisciplineL
    rw [if_neg (by tauto), if_neg (by rw [h3]; simp), if_neg (by rw [h4, h5]; simp),
      if_pos (by rcases h6 with h | h | h <;> rw [h] <;> simp)]
  · intro h1 h2 h3 h4 h5 h6 h7 h8
    unfold categorizeDiscipline categorizeDisciplineL
    rw [if_neg (by tauto), if_neg (by rw [h3]; simp), if_neg (by rw [h4, h5]; simp),
      if_neg (by rw [h6, h7, h8]; simp)]

theorem c6_discipline_categorization_witness :
    categorizeDiscipline "HSE Safety" = DisciplineResult.skippedHSE ∧
    categorizeDiscipline "Structural Works" = DisciplineResult.kept "MEP" :=
  ⟨(c6_discipline_categorization "HSE Safety").2.1 (by decide) (by decide) (by decide),
   (c6_discipline_categorization "Structural Works").2.2.2.2 (by decide) (by decide)
     (by decide) (by decide) (by decide) (by decide) (by decide) (by decide)⟩

/-- C7 (counterexample): the Closed filter applies the window upper bound
to the creation date (line 256), not the close date: a record created on
day 0 and closed on day 100 is retained under the window `[0, 50]`, while
the claimed predicate (close date at or before the upper bound) rejects
it. -/
theorem c7_window_counterexample :
    closedFilter 0 50 [rowCexC7] = [rowCexC7] ∧
    specClosedRetain 0 50 rowCexC7 = false := by
  refine ⟨by decide, by decide⟩

/-- C7 (amended): a record is retained by the Closed filter exactly when
its status is Closed, its close date is non-null, its age exceeds 21
days, and its creation date lies within the supplied window — both the
lower and the upper bound are checked against the creation date. -/
theorem c7_closed_filter_characterization (startD endD : Int)
    (rows : List ClosedRow) (r : ClosedRow) :
    r ∈ closedFilter startD endD rows ↔
      r ∈ rows ∧ r.closedOpt.isSome = true ∧ r.status = "Closed" ∧
      startD ≤ r.created ∧ r.created ≤ endD ∧ 21 < rowDays r := by
  unfold closedFilter
  simp only [List.mem_filter, Bool.and_eq_true, beq_iff_eq, decide_eq_true_eq]
  tauto

/-- C8 (counterexample): a non-empty well-formed input on which the
status/age/date filter matches zero rows makes the generator return an
error payload (line 288), not the empty-result payload. -/
theorem c8_zero_match_counterexample :
    [rowOpenC8] ≠ [] ∧ closedFilter 0 100 [rowOpenC8] = [] ∧
    ncrClosedPrep [rowOpenC8] 0 100 =
      PrepOutcome.errorResult "No Closed records found with duration > 21 days" := by
  refine ⟨by decide, by decide, by decide⟩

/-- C8 (amended): zero rows after status/age/date filtering yields an
error payload; the explicit empty-result payload, which is distinct from
every error payload, is returned only when filtering keeps at least one
row but the cleaning loop drops them all. -/
theorem c8_prep_outcomes (rows : List ClosedRow) (startD endD : Int) :
    (rows ≠ [] → closedFilter startD endD rows = [] →
       ncrClosedPrep rows startD endD =
         PrepOutcome.errorResult "No Closed records found with duration > 21 days") ∧
    (closedFilter startD endD rows ≠ [] →
       cleanRecordsNCR ((closedFilter startD endD rows).map toInput) = [] →
       ncrClosedPrep rows startD endD = PrepOutcome.emptySentinel) ∧
    (∀ msg, PrepOutcome.emptySentinel ≠ PrepOutcome.errorResult msg) := by
  refine ⟨?_, ?_, ?_⟩
  · intro h1 h2
    unfold ncrClosedPrep
    rw [if_neg h1, if_pos h2]
  · intro h1 h2
    have hrows : rows ≠ [] := by
      intro hr
      subst hr
      simp [closedFilter] at h1
    unfold ncrClosedPrep
    rw [if_neg hrows, if_neg h1, if_pos (by simpa [pythonDedupNCR] using h2)]
  · intro msg
    simp

theorem c8_prep_outcomes_witness :
    closedFilter 0 100 [rowNoneC8] ≠ [] ∧
    ncrClosedPrep [rowNoneC8] 0 100 = PrepOutcome.emptySentinel :=
  ⟨by decide, (c8_prep_outcomes [rowNoneC8] 0 100).2.1 (by decide) (by decide)⟩

/-- C9 (code bug): the dedup step of lines 444-450 never removes
anything: hashing `tuple(sorted(d.items()))` fails with `TypeError` on
the list-valued `"Pours"` field of every cleaned record, and the
`except` branch keeps the original list. Two identical input records
therefore survive as two identical cleaned records and the grand total
counts both. -/
theorem c9_dedup_never_fires :
    (pythonDedupNCR (cleanRecordsNCR [rowDupC9, rowDupC9])).length = 2 ∧
    ¬ (pythonDedupNCR (cleanRecordsNCR [rowDupC9, rowDupC9])).Nodup ∧
    (runNCR [(pythonDedupNCR (cleanRecordsNCR [rowDupC9, rowDupC9]),
        RemoteOutcome.failure)]).grandTotal = 2 := by
  refine ⟨by decide, by decide, by decide⟩

/-- C10 (counterexample): `zfill(2)` pads to at least two digits but does
not truncate, so the description `"tower 123 water leakage"` survives
cleaning with tower `"Eden-Tower-123"`, which matches none of the
claimed two-digit forms. -/
theorem c10_tower_form_counterexample :
    cleanRecordsNCR [rowTower123] ≠ [] ∧
    ∀ r ∈ cleanRecordsNCR [rowTower123],
      r.tower = "Eden-Tower-123" ∧ specTowerForm r.tower = false := by
  refine ⟨by decide, by decide⟩

/-- C10 (amended): every record surviving NCR cleaning has a `Pours`
field that is either exactly `["Common"]` or a non-empty
lexicographically sorted duplicate-free list of `P<n>` labels, and a
`Tower` field that is `"Eden-Club"`, `"Common_Area"`, or one of the
`"Eden-Tower-..."` forms built from digit runs zero-padded to at least
two characters (longer runs are kept as-is). -/
theorem c10_cleaned_record_invariant (rows : List InputRecord) (r : CleanedRecord)
    (hr : r ∈ cleanRecordsNCR rows) :
    poursInvariant r.pours ∧ towerInvariant r.tower := by
  obtain ⟨rec, -, hc⟩ := List.mem_filterMap.mp hr
  unfold classifyNCR at hc
  by_cases hd : lowerList rec.description = []
  · rw [if_pos hd] at hc
    exact absurd hc (by simp)
  · rw [if_neg hd] at hc
    cases hcat : categorizeDiscipline rec.discipline with
    | dropped =>
      rw [hcat] at hc
      exact absurd hc (by simp)
    | skippedHSE =>
      rw [hcat] at hc
      exact absurd hc (by simp)
    | kept cat =>
      rw [hcat] at hc
      injection hc with hc
      subst hc
      exact ⟨extractPours_invariant _, assignTower_invariant _⟩

theorem c10_cleaned_record_invariant_witness :
    c10WitnessClean ∈ cleanRecordsNCR [c10WitnessRow] ∧
    (poursInvariant c10WitnessClean.pours ∧ towerInvariant c10WitnessClean.tower) :=
  ⟨by decide, c10_cleaned_record_invariant [c10WitnessRow] c10WitnessClean (by decide)⟩
